import Mathlib

/-!
Shallow embedding of the VHDL backend driver (tgt-vhdl/vhdl.cc) of the
Icarus Verilog compiler: the entity registry, the signal-identity map,
the error counter and the run driver target_design, together with
theorems about registration, renaming, lookup, error accumulation,
emission gating and end-of-run cleanup.
-/

namespace VhdlTarget

/-- A VHDL entity as the registry sees it: lookup and duplicate
detection use only its name (vhdl_entity::get_name). -/
structure vhdl_entity where
  name : String
deriving DecidableEq, Repr

/-- vhdl_entity::get_name. -/
def vhdl_entity.get_name (e : vhdl_entity) : String := e.name

/-- A source (Verilog) signal handle: a stable identity token plus the
declared base name reported by ivl_signal_basename. -/
structure ivl_signal where
  id : Nat
  basename : String
deriving DecidableEq, Repr

/-- ivl_signal_basename: the declared base name of a source signal. -/
def ivl_signal_basename (sig : ivl_signal) : String := sig.basename

/-- signal_defn_t: the VHDL name of the signal (field renamed) and the
entity where it is defined (field ent). -/
structure signal_defn_t where
  renamed : String
  ent : vhdl_entity
deriving DecidableEq, Repr

/-- signal_defn_map_t: std::map from signals to their definitions,
modelled as an association list with at most one entry per key. -/
abbrev signal_defn_map_t := List (ivl_signal × signal_defn_t)

/-- Lookup in the signal map (std::map::find). -/
def map_find (m : signal_defn_map_t) (k : ivl_signal) : Option signal_defn_t :=
  match m with
  | [] => none
  | (k2, v) :: rest => if k = k2 then some v else map_find rest k

/-- Insert-or-assign in the signal map (std::map::operator[] followed by
assignment). -/
def map_insert (m : signal_defn_map_t) (k : ivl_signal) (v : signal_defn_t) :
    signal_defn_map_t :=
  match m with
  | [] => [(k, v)]
  | (k2, v2) :: rest =>
    if k = k2 then (k, v) :: rest else (k2, v2) :: map_insert rest k v

/-- The process-wide mutable state of the backend: the globals
g_errors, g_entities and g_known_signals of vhdl.cc. -/
structure VhdlState where
  g_errors : Nat
  g_entities : List vhdl_entity
  g_known_signals : signal_defn_map_t
deriving DecidableEq, Repr

/-- The state the globals have when the process starts: g_errors = 0,
both collections empty. -/
def initState : VhdlState :=
  { g_errors := 0, g_entities := [], g_known_signals := [] }

/-- error(fmt, ...): prints a message and increments g_errors; it never
aborts and touches no other state. -/
def error_op (s : VhdlState) : VhdlState :=
  { s with g_errors := s.g_errors + 1 }

/-- The loop body of find_entity: scan the entity list in order for the
first entity whose name matches. -/
def find_entity_in (l : List vhdl_entity) (tname : String) : Option vhdl_entity :=
  match l with
  | [] => none
  | e :: rest => if e.get_name = tname then some e else find_entity_in rest tname

/-- find_entity(tname): linear scan of g_entities; returns NULL (none)
when no entity has that name. -/
def find_entity (s : VhdlState) (tname : String) : Option vhdl_entity :=
  find_entity_in s.g_entities tname

/-- remember_entity(ent): assert no entity of that name is registered,
then push_back. The assertion failure is modelled as none. -/
def remember_entity (s : VhdlState) (ent : vhdl_entity) : Option VhdlState :=
  if find_entity s ent.get_name = none then
    some { s with g_entities := s.g_entities ++ [ent] }
  else
    none

/-- remember_signal(sig, ent): assert the signal is unknown, then record
the definition with renamed defaulted to the base name. -/
def remember_signal (s : VhdlState) (sig : ivl_signal) (ent : vhdl_entity) :
    Option VhdlState :=
  match map_find s.g_known_signals sig with
  | some _ => none
  | none =>
    let defn : signal_defn_t := { renamed := ivl_signal_basename sig, ent := ent }
    some { s with g_known_signals := map_insert s.g_known_signals sig defn }

/-- rename_signal(sig, renamed): assert the signal is known, then
overwrite the renamed field of its definition. -/
def rename_signal (s : VhdlState) (sig : ivl_signal) (renamed : String) :
    Option VhdlState :=
  match map_find s.g_known_signals sig with
  | none => none
  | some defn =>
    let defn2 : signal_defn_t := { defn with renamed := renamed }
    some { s with g_known_signals := map_insert s.g_known_signals sig defn2 }

/-- find_entity_for_signal(sig): assert the signal is known, then return
the ent field of its definition. -/
def find_entity_for_signal (s : VhdlState) (sig : ivl_signal) : Option vhdl_entity :=
  Option.map (fun d => d.ent) (map_find s.g_known_signals sig)

/-- get_renamed_signal(sig): assert the signal is known, then return the
renamed field of its definition. -/
def get_renamed_signal (s : VhdlState) (sig : ivl_signal) : Option String :=
  Option.map (fun d => d.renamed) (map_find s.g_known_signals sig)

/-- One call the external traversal (draw_scope / draw_process) makes
into the core during a run. -/
inductive TraversalCall where
  | callError : TraversalCall
  | callRememberEntity (ent : vhdl_entity) : TraversalCall
  | callRememberSignal (sig : ivl_signal) (ent : vhdl_entity) : TraversalCall
  | callRenameSignal (sig : ivl_signal) (renamed : String) : TraversalCall
deriving DecidableEq, Repr

/-- Execute one traversal call; none is an assertion abort. -/
def runCall (s : VhdlState) : TraversalCall → Option VhdlState
  | TraversalCall.callError => some (error_op s)
  | TraversalCall.callRememberEntity ent => remember_entity s ent
  | TraversalCall.callRememberSignal sig ent => remember_signal s sig ent
  | TraversalCall.callRenameSignal sig renamed => rename_signal s sig renamed

/-- Execute the whole traversal in order, stopping at the first
assertion abort. -/
def runTraversal (s : VhdlState) : List TraversalCall → Option VhdlState
  | [] => some s
  | c :: rest =>
    match runCall s c with
    | none => none
    | some s2 => runTraversal s2 rest

/-- Number of error() calls a traversal makes. -/
def countErrors : List TraversalCall → Nat
  | [] => 0
  | TraversalCall.callError :: rest => countErrors rest + 1
  | _ :: rest => countErrors rest

/-- The entities a traversal passes to remember_entity, in call order. -/
def entitiesOf : List TraversalCall → List vhdl_entity
  | [] => []
  | TraversalCall.callRememberEntity ent :: rest => ent :: entitiesOf rest
  | _ :: rest => entitiesOf rest

/-- The observable outcome of one target_design invocation: the global
state left behind, the sequence of entities written to the output file
(none when the file is never opened), and the returned int. -/
structure RunResult where
  finalState : VhdlState
  output : Option (List vhdl_entity)
  status : Nat
deriving DecidableEq, Repr

/-- target_design(des): run the traversal; if g_errors is zero emit
every registered entity in order to the output file, otherwise write
nothing; delete and clear g_entities (g_errors and g_known_signals are
left untouched); return g_errors. none is an assertion abort during the
traversal. -/
def target_design (s : VhdlState) (traversal : List TraversalCall) :
    Option RunResult :=
  match runTraversal s traversal with
  | none => none
  | some s1 =>
    some { finalState := { s1 with g_entities := [] },
           output := if s1.g_errors = 0 then some s1.g_entities else none,
           status := s1.g_errors }

/-- Looking up a key just inserted yields the inserted value. -/
theorem map_find_insert_self (m : signal_defn_map_t) (k : ivl_signal)
    (v : signal_defn_t) : map_find (map_insert m k v) k = some v := by
  induction m with
  | nil => simp [map_insert, map_find]
  | cons p rest ih =>
    obtain ⟨k2, v2⟩ := p
    by_cases h : k = k2
    · simp [map_insert, map_find, h]
    · simp [map_insert, map_find, h, ih]

/-- Two successive inserts at the same key collapse to the second. -/
theorem map_insert_insert_self (m : signal_defn_map_t) (k : ivl_signal)
    (v1 v2 : signal_defn_t) :
    map_insert (map_insert m k v1) k v2 = map_insert m k v2 := by
  induction m with
  | nil => simp [map_insert]
  | cons p rest ih =>
    obtain ⟨k2, v3⟩ := p
    by_cases h : k = k2
    · simp [map_insert, h]
    · simp [map_insert, h, ih]

/-- The entity scan returns not-found exactly when no entity in the
list bears the requested name. -/
theorem find_entity_in_eq_none_iff (l : List vhdl_entity) (n : String) :
    find_entity_in l n = none ↔ ∀ e, e ∈ l → e.get_name ≠ n := by
  induction l with
  | nil => simp [find_entity_in]
  | cons a rest ih =>
    by_cases h : a.get_name = n
    · simp [find_entity_in, h]
    · simp [find_entity_in, h, ih]

/-- A hit of the entity scan is a member of the list with the requested
name. -/
theorem find_entity_in_some (l : List vhdl_entity) (n : String) (e : vhdl_entity)
    (h : find_entity_in l n = some e) : e ∈ l ∧ e.get_name = n := by
  induction l with
  | nil => simp [find_entity_in] at h
  | cons a rest ih =>
    by_cases ha : a.get_name = n
    · simp [find_entity_in, ha] at h
      subst h
      exact ⟨List.mem_cons_self a rest, ha⟩
    · simp [find_entity_in, ha] at h
      obtain ⟨hm, hn⟩ := ih h
      exact ⟨List.mem_cons_of_mem a hm, hn⟩

/-- After appending an entity, scanning for its name hits. -/
theorem find_entity_in_append_self (l : List vhdl_entity) (e : vhdl_entity) :
    find_entity_in (l ++ [e]) e.get_name ≠ none := by
  intro h
  rw [find_entity_in_eq_none_iff] at h
  exact h e (by simp) rfl

/-- When some entity in the list bears the requested name, the scan does
not return not-found. -/
theorem find_entity_in_ne_none_of_mem (l : List vhdl_entity) (n : String)
    (e : vhdl_entity) (hm : e ∈ l) (hn : e.get_name = n) :
    find_entity_in l n ≠ none := by
  intro h0
  rw [find_entity_in_eq_none_iff] at h0
  exact h0 e hm hn

/-- When the names in the list are duplicate-free (the registry
invariant remember_entity enforces), the scan returns exactly the
member bearing the requested name. -/
theorem find_entity_in_eq_some_of_nodup (l : List vhdl_entity) (n : String)
    (e : vhdl_entity) (hnd : (List.map vhdl_entity.get_name l).Nodup)
    (hm : e ∈ l) (hn : e.get_name = n) : find_entity_in l n = some e := by
  induction l with
  | nil => exact absurd hm (List.not_mem_nil e)
  | cons a rest ih =>
    simp only [List.map_cons, List.nodup_cons] at hnd
    obtain ⟨hna, hndr⟩ := hnd
    rcases List.mem_cons.mp hm with rfl | hmr
    · simp [find_entity_in, hn]
    · have hne : a.get_name ≠ n := by
        intro heq
        apply hna
        rw [heq, ← hn]
        exact List.mem_map.mpr ⟨e, hmr, rfl⟩
      simp only [find_entity_in]
      rw [if_neg hne]
      exact ih hndr hmr

/-- Effect of one traversal call on the error counter and the entity
registry: only callError raises the counter (by one) and only
callRememberEntity appends to the registry (one entity, at the back). -/
theorem runCall_effect (s s2 : VhdlState) (c : TraversalCall)
    (h : runCall s c = some s2) :
    s2.g_errors = s.g_errors + countErrors [c] ∧
    s2.g_entities = s.g_entities ++ entitiesOf [c] := by
  cases c with
  | callError =>
    simp [runCall] at h
    subst h
    simp [error_op, countErrors, entitiesOf]
  | callRememberEntity ent =>
    by_cases hf : find_entity s ent.get_name = none
    · simp [runCall, remember_entity, hf] at h
      subst h
      simp [countErrors, entitiesOf]
    · simp [runCall, remember_entity, hf] at h
  | callRememberSignal sig ent =>
    cases hm : map_find s.g_known_signals sig with
    | some d => simp [runCall, remember_signal, hm] at h
    | none =>
      simp [runCall, remember_signal, hm] at h
      subst h
      simp [countErrors, entitiesOf]
  | callRenameSignal sig renamed =>
    cases hm : map_find s.g_known_signals sig with
    | none => simp [runCall, rename_signal, hm] at h
    | some d =>
      simp [runCall, rename_signal, hm] at h
      subst h
      simp [countErrors, entitiesOf]

/-- A non-aborting traversal adds exactly its error calls to the
counter and appends exactly its registered entities, in call order, to
the registry. -/
theorem runTraversal_effect (t : List TraversalCall) (s s1 : VhdlState)
    (h : runTraversal s t = some s1) :
    s1.g_errors = s.g_errors + countErrors t ∧
    s1.g_entities = s.g_entities ++ entitiesOf t := by
  induction t generalizing s with
  | nil =>
    simp [runTraversal] at h
    subst h
    simp [countErrors, entitiesOf]
  | cons c rest ih =>
    simp only [runTraversal] at h
    cases hc : runCall s c with
    | none => rw [hc] at h; exact absurd h (by simp)
    | some s2 =>
      rw [hc] at h
      obtain ⟨he, hl⟩ := ih s2 h
      obtain ⟨he2, hl2⟩ := runCall_effect s s2 c hc
      constructor
      · rw [he, he2]
        cases c
        all_goals simp [countErrors]
        all_goals omega
      · rw [hl, hl2]
        cases c <;> simp [entitiesOf]

/-- One traversal call keeps registry entity names duplicate-free:
remember_entity only succeeds on a fresh name, and no other call
touches the registry. -/
theorem runCall_nodup (s s2 : VhdlState) (c : TraversalCall)
    (h : runCall s c = some s2)
    (hn : (List.map vhdl_entity.get_name s.g_entities).Nodup) :
    (List.map vhdl_entity.get_name s2.g_entities).Nodup := by
  obtain ⟨_, hl⟩ := runCall_effect s s2 c h
  cases c with
  | callError => rw [hl]; simpa [entitiesOf] using hn
  | callRememberSignal sig ent => rw [hl]; simpa [entitiesOf] using hn
  | callRenameSignal sig renamed => rw [hl]; simpa [entitiesOf] using hn
  | callRememberEntity ent =>
    by_cases hf : find_entity s ent.get_name = none
    · rw [hl]
      simp only [entitiesOf, List.map_append]
      rw [List.nodup_append]
      refine ⟨hn, List.nodup_singleton _, ?_⟩
      intro x hx hx2
      simp only [List.map_cons, List.map_nil, List.mem_singleton] at hx2
      rw [find_entity, find_entity_in_eq_none_iff] at hf
      obtain ⟨y, hy, hyx⟩ := List.mem_map.mp hx
      exact hf y hy (by rw [hyx, hx2])
    · simp [runCall, remember_entity, hf] at h

/-- A non-aborting traversal keeps registry entity names
duplicate-free. -/
theorem runTraversal_nodup (t : List TraversalCall) (s s1 : VhdlState)
    (h : runTraversal s t = some s1)
    (hn : (List.map vhdl_entity.get_name s.g_entities).Nodup) :
    (List.map vhdl_entity.get_name s1.g_entities).Nodup := by
  induction t generalizing s with
  | nil => simp [runTraversal] at h; subst h; exact hn
  | cons c rest ih =>
    simp only [runTraversal] at h
    cases hc : runCall s c with
    | none => rw [hc] at h; exact absurd h (by simp)
    | some s2 => rw [hc] at h; exact ih s2 h (runCall_nodup s s2 c hc hn)

/-- C3: after register(sig, e) then rename(sig, n), current_name_of(sig)
returns n and owner_of(sig) still returns e — rename_signal updates only
the renamed field and leaves the ent field unchanged. -/
theorem C3_rename_updates_name_only (s s1 s2 : VhdlState) (sig : ivl_signal)
    (e : vhdl_entity) (n : String)
    (h1 : remember_signal s sig e = some s1)
    (h2 : rename_signal s1 sig n = some s2) :
    get_renamed_signal s2 sig = some n ∧ find_entity_for_signal s2 sig = some e := by
  unfold remember_signal at h1
  split at h1
  · exact absurd h1 (by simp)
  · simp only [Option.some.injEq] at h1
    subst h1
    simp only [rename_signal, map_find_insert_self, Option.some.injEq] at h2
    subst h2
    constructor
    · simp [get_renamed_signal, map_find_insert_self]
    · simp [find_entity_for_signal, map_find_insert_self]

/-- Witness for C3 at a concrete program: signal q registered under
entity top, then renamed to q_reg. -/
theorem C3_witness :
    get_renamed_signal
      { g_errors := 0, g_entities := [],
        g_known_signals :=
          [({ id := 0, basename := "q" },
            { renamed := "q_reg", ent := { name := "top" } })] }
      { id := 0, basename := "q" } = some "q_reg" ∧
    find_entity_for_signal
      { g_errors := 0, g_entities := [],
        g_known_signals :=
          [({ id := 0, basename := "q" },
            { renamed := "q_reg", ent := { name := "top" } })] }
      { id := 0, basename := "q" } = some { name := "top" } :=
  C3_rename_updates_name_only initState _ _ { id := 0, basename := "q" }
    { name := "top" } "q_reg" rfl rfl

/-- C5: registering a second entity with an already-registered name hits
the assert in remember_entity (modelled as none), and registering the
same signal twice hits the assert in remember_signal; neither is counted
as a translation error. -/
theorem C5_duplicate_registration_aborts (s s1 s2 : VhdlState)
    (e1 e2 eo1 eo2 : vhdl_entity) (sig : ivl_signal)
    (hent : remember_entity s e1 = some s1)
    (hname : e2.get_name = e1.get_name)
    (hsig : remember_signal s sig eo1 = some s2) :
    remember_entity s1 e2 = none ∧ remember_signal s2 sig eo2 = none := by
  constructor
  · unfold remember_entity at hent
    split at hent
    · simp only [Option.some.injEq] at hent
      subst hent
      have hne : find_entity_in (s.g_entities ++ [e1]) e2.get_name ≠ none := by
        rw [hname]
        exact find_entity_in_append_self s.g_entities e1
      simp [remember_entity, find_entity, hne]
    · exact absurd hent (by simp)
  · unfold remember_signal at hsig
    split at hsig
    · exact absurd hsig (by simp)
    · simp only [Option.some.injEq] at hsig
      subst hsig
      simp [remember_signal, map_find_insert_self]

/-- Witness for C5: re-registering entity top and re-registering signal
clk both abort. -/
theorem C5_witness :
    remember_entity
      { g_errors := 0, g_entities := [{ name := "top" }], g_known_signals := [] }
      { name := "top" } = none ∧
    remember_signal
      { g_errors := 0, g_entities := [],
        g_known_signals :=
          [({ id := 0, basename := "clk" },
            { renamed := "clk", ent := { name := "top" } })] }
      { id := 0, basename := "clk" } { name := "top" } = none :=
  C5_duplicate_registration_aborts initState _ _ { name := "top" } { name := "top" }
    { name := "top" } { name := "top" } { id := 0, basename := "clk" } rfl rfl rfl

/-- C6: for an unregistered signal both find_entity_for_signal and
get_renamed_signal hit the assert (modelled as none) instead of
returning a default value. -/
theorem C6_unregistered_lookup_aborts (s : VhdlState) (sig : ivl_signal)
    (h : map_find s.g_known_signals sig = none) :
    find_entity_for_signal s sig = none ∧ get_renamed_signal s sig = none := by
  simp [find_entity_for_signal, get_renamed_signal, h]

/-- Witness for C6: lookups on the empty signal map abort. -/
theorem C6_witness :
    find_entity_for_signal initState { id := 0, basename := "x" } = none ∧
    get_renamed_signal initState { id := 0, basename := "x" } = none :=
  C6_unregistered_lookup_aborts initState { id := 0, basename := "x" } rfl

/-- C7: find_entity is total — it never aborts; every hit is a
registered entity bearing the requested name; when a registered entity
bears the name the result is not NULL, and under the duplicate-free
registry names that remember_entity enforces it is exactly that entity;
it returns NULL exactly when no registered entity has that name. -/
theorem C7_find_entity_total (s : VhdlState) (n : String) (e : vhdl_entity) :
    (find_entity s n = some e → e ∈ s.g_entities ∧ e.get_name = n) ∧
    (e ∈ s.g_entities → e.get_name = n → find_entity s n ≠ none) ∧
    ((List.map vhdl_entity.get_name s.g_entities).Nodup → e ∈ s.g_entities →
      e.get_name = n → find_entity s n = some e) ∧
    ((∀ x, x ∈ s.g_entities → x.get_name ≠ n) → find_entity s n = none) ∧
    (find_entity s n = none ∨ ∃ y, find_entity s n = some y) := by
  refine ⟨fun h => find_entity_in_some s.g_entities n e h,
    fun hm hn => find_entity_in_ne_none_of_mem s.g_entities n e hm hn,
    fun hnd hm hn => find_entity_in_eq_some_of_nodup s.g_entities n e hnd hm hn,
    fun h => (find_entity_in_eq_none_iff s.g_entities n).mpr h, ?_⟩
  cases hf : find_entity s n with
  | none => exact Or.inl rfl
  | some y => exact Or.inr ⟨y, rfl⟩

/-- Witness for C7: in a registry holding entities a and b, looking up b
hits a registered entity named b and in fact returns the registered
entity b itself, and looking up c returns NULL. -/
theorem C7_witness :
    (({ name := "b" } : vhdl_entity) ∈
        [({ name := "a" } : vhdl_entity), { name := "b" }] ∧
      ({ name := "b" } : vhdl_entity).get_name = "b") ∧
    find_entity
      { g_errors := 0, g_entities := [{ name := "a" }, { name := "b" }],
        g_known_signals := [] } "b" ≠ none ∧
    find_entity
      { g_errors := 0, g_entities := [{ name := "a" }, { name := "b" }],
        g_known_signals := [] } "b" = some { name := "b" } ∧
    find_entity
      { g_errors := 0, g_entities := [{ name := "a" }, { name := "b" }],
        g_known_signals := [] } "c" = none :=
  ⟨(C7_find_entity_total
      { g_errors := 0, g_entities := [{ name := "a" }, { name := "b" }],
        g_known_signals := [] } "b" { name := "b" }).1 rfl,
   (C7_find_entity_total
      { g_errors := 0, g_entities := [{ name := "a" }, { name := "b" }],
        g_known_signals := [] } "b" { name := "b" }).2.1 (by decide) rfl,
   (C7_find_entity_total
      { g_errors := 0, g_entities := [{ name := "a" }, { name := "b" }],
        g_known_signals := [] } "b" { name := "b" }).2.2.1 (by decide) (by decide) rfl,
   (C7_find_entity_total
      { g_errors := 0, g_entities := [{ name := "a" }, { name := "b" }],
        g_known_signals := [] } "c" { name := "c" }).2.2.2.1
     (by intro x hx; fin_cases hx <;> decide)⟩

/-- C8: immediately after remember_signal(sig, e), the current name of
sig is its declared base name and its owner is e. -/
theorem C8_register_defaults (s s1 : VhdlState) (sig : ivl_signal) (e : vhdl_entity)
    (h : remember_signal s sig e = some s1) :
    get_renamed_signal s1 sig = some (ivl_signal_basename sig) ∧
    find_entity_for_signal s1 sig = some e := by
  unfold remember_signal at h
  split at h
  · exact absurd h (by simp)
  · simp only [Option.some.injEq] at h
    subst h
    simp [get_renamed_signal, find_entity_for_signal, map_find_insert_self]

/-- Witness for C8: registering clk under top yields name clk and owner
top. -/
theorem C8_witness :
    get_renamed_signal
      { g_errors := 0, g_entities := [],
        g_known_signals :=
          [({ id := 3, basename := "clk" },
            { renamed := "clk", ent := { name := "top" } })] }
      { id := 3, basename := "clk" } =
        some (ivl_signal_basename { id := 3, basename := "clk" }) ∧
    find_entity_for_signal
      { g_errors := 0, g_entities := [],
        g_known_signals :=
          [({ id := 3, basename := "clk" },
            { renamed := "clk", ent := { name := "top" } })] }
      { id := 3, basename := "clk" } = some { name := "top" } :=
  C8_register_defaults initState _ { id := 3, basename := "clk" }
    { name := "top" } rfl

/-- C9: error() is total (never aborts), increments g_errors by exactly
one, leaves the entity registry and signal map untouched, and hence the
error count never decreases across any traversal. -/
theorem C9_error_increments_only (s : VhdlState) (t : List TraversalCall)
    (s1 : VhdlState) (h : runTraversal s t = some s1) :
    runCall s TraversalCall.callError = some (error_op s) ∧
    (error_op s).g_errors = s.g_errors + 1 ∧
    (error_op s).g_entities = s.g_entities ∧
    (error_op s).g_known_signals = s.g_known_signals ∧
    s.g_errors ≤ s1.g_errors := by
  refine ⟨rfl, rfl, rfl, rfl, ?_⟩
  obtain ⟨he, _⟩ := runTraversal_effect t s s1 h
  omega

/-- Witness for C9 at the initial state and a one-error traversal. -/
theorem C9_witness :
    runCall initState TraversalCall.callError = some (error_op initState) ∧
    (error_op initState).g_errors = initState.g_errors + 1 ∧
    (error_op initState).g_entities = initState.g_entities ∧
    (error_op initState).g_known_signals = initState.g_known_signals ∧
    initState.g_errors ≤ VhdlState.g_errors
      { g_errors := 1, g_entities := [], g_known_signals := [] } :=
  C9_error_increments_only initState [TraversalCall.callError]
    { g_errors := 1, g_entities := [], g_known_signals := [] } rfl

/-- C10: the last rename wins — after renaming sig to n1 and then to n2,
the current name is n2 and the state is exactly the one a single rename
to n2 would have produced, so n1 is unrecoverable. -/
theorem C10_last_rename_wins (s s1 s2 : VhdlState) (sig : ivl_signal)
    (n1 n2 : String)
    (h1 : rename_signal s sig n1 = some s1)
    (h2 : rename_signal s1 sig n2 = some s2) :
    get_renamed_signal s2 sig = some n2 ∧ rename_signal s sig n2 = some s2 := by
  unfold rename_signal at h1
  split at h1
  · exact absurd h1 (by simp)
  case _ d hm =>
    simp only [Option.some.injEq] at h1
    subst h1
    simp only [rename_signal, map_find_insert_self, Option.some.injEq] at h2
    subst h2
    constructor
    · simp [get_renamed_signal, map_find_insert_self]
    · simp [rename_signal, hm, map_insert_insert_self]

/-- Witness for C10: q renamed to q1 and then to q2 reads back as q2,
and the double rename collapses to the single rename to q2. -/
theorem C10_witness :
    get_renamed_signal
      { g_errors := 0, g_entities := [],
        g_known_signals :=
          [({ id := 0, basename := "q" },
            { renamed := "q2", ent := { name := "top" } })] }
      { id := 0, basename := "q" } = some "q2" ∧
    rename_signal
      { g_errors := 0, g_entities := [],
        g_known_signals :=
          [({ id := 0, basename := "q" },
            { renamed := "q", ent := { name := "top" } })] }
      { id := 0, basename := "q" } "q2" =
      some
        { g_errors := 0, g_entities := [],
          g_known_signals :=
            [({ id := 0, basename := "q" },
              { renamed := "q2", ent := { name := "top" } })] } :=
  C10_last_rename_wins
    { g_errors := 0, g_entities := [],
      g_known_signals :=
        [({ id := 0, basename := "q" },
          { renamed := "q", ent := { name := "top" } })] }
    _ _ { id := 0, basename := "q" } "q1" "q2" rfl rfl

/-- C1 counterexample: target_design leaves g_errors untouched, so a
second run in the same process can start with g_errors = 1 (the state
the first run, which reported one error, left behind); in that second
run the traversal reports zero errors and registers entity top, yet
nothing is written — refuting the claim for that run. -/
theorem C1_counterexample :
    target_design initState [TraversalCall.callError] =
      some { finalState := { g_errors := 1, g_entities := [], g_known_signals := [] },
             output := none, status := 1 } ∧
    countErrors [TraversalCall.callRememberEntity { name := "top" }] = 0 ∧
    target_design { g_errors := 1, g_entities := [], g_known_signals := [] }
        [TraversalCall.callRememberEntity { name := "top" }] =
      some { finalState := { g_errors := 1, g_entities := [], g_known_signals := [] },
             output := none, status := 1 } :=
  ⟨rfl, rfl, rfl⟩

/-- C1 amended: emission is gated on the cumulative error counter, which
includes errors left over from earlier runs in the same process. For a
run that starts with a zero error count and an empty registry (as the
first run of a process does), the claim holds as stated: zero reported
errors means the output receives every registered entity exactly once
(names are duplicate-free) in registration order, and one or more
reported errors means nothing is written. -/
theorem C1_emission_gating (s : VhdlState) (t : List TraversalCall) (r : RunResult)
    (hrun : target_design s t = some r)
    (hfresh : s.g_errors = 0) (hempty : s.g_entities = []) :
    (countErrors t = 0 →
      r.output = some (entitiesOf t) ∧
      (List.map vhdl_entity.get_name (entitiesOf t)).Nodup) ∧
    (0 < countErrors t → r.output = none) := by
  unfold target_design at hrun
  cases ht : runTraversal s t with
  | none => rw [ht] at hrun; exact absurd hrun (by simp)
  | some s1 =>
    rw [ht] at hrun
    simp only [Option.some.injEq] at hrun
    subst hrun
    obtain ⟨he, hl⟩ := runTraversal_effect t s s1 ht
    rw [hfresh] at he
    rw [hempty] at hl
    simp only [Nat.zero_add, List.nil_append] at he hl
    constructor
    · intro hc
      have hz : s1.g_errors = 0 := by omega
      have hnd := runTraversal_nodup t s s1 ht (by rw [hempty]; simp)
      rw [hl] at hnd
      exact ⟨by simp [hz, hl], hnd⟩
    · intro hc
      have hz : s1.g_errors ≠ 0 := by omega
      simp [hz]

/-- Witness for the amended C1: a fresh run registering entity top with
no errors writes exactly that entity. -/
theorem C1_witness :
    ({ finalState := { g_errors := 0, g_entities := [], g_known_signals := [] },
       output := some [{ name := "top" }], status := 0 } : RunResult).output =
        some (entitiesOf [TraversalCall.callRememberEntity { name := "top" }]) ∧
    (List.map vhdl_entity.get_name
        (entitiesOf [TraversalCall.callRememberEntity { name := "top" }])).Nodup :=
  (C1_emission_gating initState [TraversalCall.callRememberEntity { name := "top" }]
      { finalState := { g_errors := 0, g_entities := [], g_known_signals := [] },
        output := some [{ name := "top" }], status := 0 } rfl rfl rfl).1 rfl

/-- C2 counterexample: a completed run that registered signal clk and
reported one error leaves g_errors = 1 and a non-empty g_known_signals
behind, so the next run does not start from a fully reset state. -/
theorem C2_counterexample :
    target_design initState
        [TraversalCall.callRememberSignal { id := 0, basename := "clk" }
           { name := "top" },
         TraversalCall.callError] =
      some { finalState :=
               { g_errors := 1, g_entities := [],
                 g_known_signals :=
                   [({ id := 0, basename := "clk" },
                     { renamed := "clk", ent := { name := "top" } })] },
             output := none, status := 1 } :=
  rfl

/-- C2 amended: after any run of target_design, only the entity registry
is cleared; the signal map is exactly the one the traversal built (never
cleared) and the error count is the run-start count plus the errors
reported during the run (never reset). -/
theorem C2_entities_cleared_errors_persist (s : VhdlState) (t : List TraversalCall)
    (s1 : VhdlState) (r : RunResult)
    (ht : runTraversal s t = some s1)
    (h : target_design s t = some r) :
    r.finalState.g_entities = [] ∧
    r.finalState.g_known_signals = s1.g_known_signals ∧
    r.finalState.g_errors = s1.g_errors ∧
    r.finalState.g_errors = s.g_errors + countErrors t := by
  unfold target_design at h
  rw [ht] at h
  simp only [Option.some.injEq] at h
  subst h
  obtain ⟨he, _⟩ := runTraversal_effect t s s1 ht
  exact ⟨rfl, rfl, rfl, he⟩

/-- Witness for the amended C2: after a one-error run the final state
keeps the error and has an empty registry. -/
theorem C2_witness :
    ({ finalState := { g_errors := 1, g_entities := [], g_known_signals := [] },
       output := none, status := 1 } : RunResult).finalState.g_entities = [] ∧
    ({ finalState := { g_errors := 1, g_entities := [], g_known_signals := [] },
       output := none, status := 1 } : RunResult).finalState.g_known_signals =
      VhdlState.g_known_signals
        { g_errors := 1, g_entities := [], g_known_signals := [] } ∧
    ({ finalState := { g_errors := 1, g_entities := [], g_known_signals := [] },
       output := none, status := 1 } : RunResult).finalState.g_errors =
      VhdlState.g_errors
        { g_errors := 1, g_entities := [], g_known_signals := [] } ∧
    ({ finalState := { g_errors := 1, g_entities := [], g_known_signals := [] },
       output := none, status := 1 } : RunResult).finalState.g_errors =
      initState.g_errors + countErrors [TraversalCall.callError] :=
  C2_entities_cleared_errors_persist initState [TraversalCall.callError]
    { g_errors := 1, g_entities := [], g_known_signals := [] }
    { finalState := { g_errors := 1, g_entities := [], g_known_signals := [] },
      output := none, status := 1 } rfl rfl

/-- C4 counterexample: because g_errors is never reset, a run whose
traversal reports zero errors can return 1 — the count left over from an
earlier run (established by the second conjunct) — so the returned
integer is not the error count accumulated during that run. -/
theorem C4_counterexample :
    target_design { g_errors := 1, g_entities := [], g_known_signals := [] }
        ([] : List TraversalCall) =
      some { finalState := { g_errors := 1, g_entities := [], g_known_signals := [] },
             output := none, status := 1 } ∧
    countErrors ([] : List TraversalCall) = 0 ∧
    target_design initState [TraversalCall.callError] =
      some { finalState := { g_errors := 1, g_entities := [], g_known_signals := [] },
             output := none, status := 1 } :=
  ⟨rfl, rfl, rfl⟩

/-- C4 amended: target_design returns the cumulative error counter — the
count at run start plus the errors reported during the run; it equals
that run's own error count exactly when the run starts with a zero
counter (as the first run of a process does). The status/output coupling
holds as claimed: status 0 exactly when the registry contents were
written, positive status exactly when nothing was written. -/
theorem C4_status_cumulative (s : VhdlState) (t : List TraversalCall) (r : RunResult)
    (h : target_design s t = some r) :
    r.status = s.g_errors + countErrors t ∧
    (s.g_errors = 0 → r.status = countErrors t) ∧
    (r.status = 0 → r.output = some (s.g_entities ++ entitiesOf t)) ∧
    (0 < r.status → r.output = none) := by
  unfold target_design at h
  cases ht : runTraversal s t with
  | none => rw [ht] at h; exact absurd h (by simp)
  | some s1 =>
    rw [ht] at h
    simp only [Option.some.injEq] at h
    subst h
    obtain ⟨he, hl⟩ := runTraversal_effect t s s1 ht
    refine ⟨he, fun h0 => by show s1.g_errors = countErrors t; omega,
      fun h0 => ?_, fun h0 => ?_⟩
    · have hz : s1.g_errors = 0 := h0
      simp [hz, hl]
    · have hz : s1.g_errors ≠ 0 := by
        intro hzz
        simp only [RunResult.status] at h0
        omega
      simp [hz]

/-- Witness for the amended C4: a fresh errorless run returns status 0
and writes its registered entity. -/
theorem C4_witness :
    ({ finalState := { g_errors := 0, g_entities := [], g_known_signals := [] },
       output := some [{ name := "top" }], status := 0 } : RunResult).status =
      initState.g_errors +
        countErrors [TraversalCall.callRememberEntity { name := "top" }] ∧
    (initState.g_errors = 0 →
      ({ finalState := { g_errors := 0, g_entities := [], g_known_signals := [] },
         output := some [{ name := "top" }], status := 0 } : RunResult).status =
        countErrors [TraversalCall.callRememberEntity { name := "top" }]) ∧
    (({ finalState := { g_errors := 0, g_entities := [], g_known_signals := [] },
        output := some [{ name := "top" }], status := 0 } : RunResult).status = 0 →
      ({ finalState := { g_errors := 0, g_entities := [], g_known_signals := [] },
         output := some [{ name := "top" }], status := 0 } : RunResult).output =
        some (initState.g_entities ++
          entitiesOf [TraversalCall.callRememberEntity { name := "top" }])) ∧
    (0 < ({ finalState := { g_errors := 0, g_entities := [], g_known_signals := [] },
            output := some [{ name := "top" }], status := 0 } : RunResult).status →
      ({ finalState := { g_errors := 0, g_entities := [], g_known_signals := [] },
         output := some [{ name := "top" }], status := 0 } : RunResult).output = none) :=
  C4_status_cumulative initState [TraversalCall.callRememberEntity { name := "top" }]
    { finalState := { g_errors := 0, g_entities := [], g_known_signals := [] },
      output := some [{ name := "top" }], status := 0 } rfl

end VhdlTarget
